import Mathlib

/-!
Verification development for the cfd-verify discretization-error engine.

The repository ships tutorial notebooks that exercise the package
`cfdverify.discretization` (`Classic`, `FinestValue`, `RelativeError`,
`AbsRelativeError`, `FactorOfSafety`, `GridConvergenceIndex`,
`CustomDiscretizationError`).  The module itself is not part of the
sources available here, so the engine is modelled from the specification:
mesh sizes and response values are embedded as rationals, derived
convergence quantities (order, extrapolated value, errors, uncertainty)
as real numbers.
-/

namespace CfdVerify

/-- Modelled from the spec: the error kinds of section 7 that the core can
surface (the spec names no error for the positivity validation of mesh
sizes, so a dedicated `nonPositiveMeshSize` tag stands for that check). -/
inductive VerifyError where
  | shapeMismatch
  | insufficientLevels
  | duplicateMeshSize
  | nonPositiveMeshSize
  | nonUniformRefinement
  | nonMonotoneConvergence
  | divisionByExtrapolatedZero
  | undefinedOrder
  | incompatibleStrategySet
  deriving DecidableEq, Repr

/-- Modelled from the spec: per-key recoverable diagnostic flags attached to
a convergence fit (`NonMonotoneConvergence` degradation, and the explicit
finest-value fallback used when fewer than three levels are available). -/
inductive Diagnostic where
  | ok
  | nonMonotoneConvergence
  | finestFallback
  deriving DecidableEq, Repr

/-- Modelled from the spec: raw input to the normalizer after shape
resolution - a mesh label, the ordered response keys, and rows pairing a
mesh size with the response values of that level (aligned with the keys). -/
structure RawInput where
  hsKey : String
  keys : List String
  rows : List (ℚ × List ℚ)
  deriving DecidableEq, Repr

/-- Modelled from the spec: the canonical container produced by the
normalizer; rows are reordered so mesh size is strictly decreasing
(finest mesh last). -/
structure MeshSeries where
  hsKey : String
  keys : List String
  rows : List (ℚ × List ℚ)
  deriving DecidableEq, Repr

/-- Order rows coarse-to-fine: `rowGe a b` holds when `a` may precede `b`,
i.e. the mesh size of `a` is at least that of `b`. -/
def rowGe (a b : ℚ × List ℚ) : Prop := b.1 ≤ a.1

/-- Strictly-decreasing-by-mesh-size relation on rows. -/
def rowGt (a b : ℚ × List ℚ) : Prop := b.1 < a.1

instance : DecidableRel rowGe := fun a b => inferInstanceAs (Decidable (b.1 ≤ a.1))

instance : IsTotal (ℚ × List ℚ) rowGe := ⟨fun a b => le_total b.1 a.1⟩

instance : IsTrans (ℚ × List ℚ) rowGe := ⟨fun _ _ _ h1 h2 => le_trans h2 h1⟩

instance : IsAntisymm (ℚ × List ℚ) rowGt :=
  ⟨fun _ _ h1 h2 => absurd h1 (not_lt.mpr (le_of_lt h2))⟩

/-- Modelled from the spec: the normalizer reorder step, sorting rows by a
single consistent permutation so mesh size is decreasing (finest last). -/
def sortRows (rows : List (ℚ × List ℚ)) : List (ℚ × List ℚ) :=
  List.insertionSort rowGe rows

/-- Every row carries one response value per key. -/
def rowsAligned (keys : List String) (rows : List (ℚ × List ℚ)) : Prop :=
  ∀ row ∈ rows, row.2.length = keys.length

instance (keys : List String) (rows : List (ℚ × List ℚ)) :
    Decidable (rowsAligned keys rows) :=
  inferInstanceAs (Decidable (∀ row ∈ rows, row.2.length = keys.length))

/-- Modelled from the spec: `normalize` validates the input (same lengths,
at least two levels, positive and pairwise distinct mesh sizes) and
reorders rows so mesh size is strictly decreasing. -/
def normalize (inp : RawInput) : Except VerifyError MeshSeries :=
  if ¬ rowsAligned inp.keys inp.rows then .error .shapeMismatch
  else if inp.rows.length < 2 then .error .insufficientLevels
  else if ¬ (∀ row ∈ inp.rows, (0:ℚ) < row.1) then .error .nonPositiveMeshSize
  else if ¬ (inp.rows.map Prod.fst).Nodup then .error .duplicateMeshSize
  else .ok ⟨inp.hsKey, inp.keys, sortRows inp.rows⟩

/-- Mesh sizes listed finest-first (the reverse of the canonical
coarse-to-fine row order). -/
def MeshSeries.hsF (s : MeshSeries) : List ℚ :=
  (s.rows.map Prod.fst).reverse

/-- Response column `j` listed finest-first. -/
def MeshSeries.colF (s : MeshSeries) (j : ℕ) : List ℚ :=
  (s.rows.map (fun row => row.2.getD j 0)).reverse

/-- Modelled from the spec: the result of fitting one response key - an
optional observed order (`none` is the explicit undefined-marker), the
extrapolated value, and a queryable diagnostic flag. -/
structure KeyFit where
  order : Option ℝ
  extrapolated : ℝ
  diag : Diagnostic

/-- Modelled from the spec: the per-key error table entry - the per-level
error values together with the `DivisionByExtrapolatedZero` substitution
flag. -/
structure KeyError where
  values : List ℝ
  substituted : Bool

/-- Modelled from the spec: the tunable configuration surface - the epsilon
guarding relative-error division, the reference magnitude used by the
flagged absolute-error substitution, the expected theoretical order band
selecting the factor of safety, and the GCI safety factor. -/
structure Config where
  eps : ℝ
  refMagnitude : ℝ
  bandLo : ℝ
  bandHi : ℝ
  fsGci : ℝ

/-- Modelled from the spec: the generalized order-solving equation over
the three finest levels (finest-first h1 < h2 < h3 with values f1, f2,
f3), used instead of the closed-form log formula when the refinement
ratio is not constant: an observed order p satisfies
(h3^p - h2^p)/(h2^p - h1^p) = (f3 - f2)/(f2 - f1), the exact condition
for the three levels to fit f = f_exact + C h^p. -/
def genEq (h1 h2 h3 f1 f2 f3 : ℚ) (p : ℝ) : Prop :=
  ((h3 : ℝ) ^ p - (h2 : ℝ) ^ p) / ((h2 : ℝ) ^ p - (h1 : ℝ) ^ p) =
    ((f3 : ℝ) - (f2 : ℝ)) / ((f2 : ℝ) - (f1 : ℝ))

open Classical in
/-- Modelled from the spec: `ClassicRichardson.fit` for one response key,
taking mesh sizes and values finest-first.  An ill-posed formula (zero
denominator or non-positive difference ratio) degrades to order 0 and
extrapolated f1 with the `nonMonotoneConvergence` flag.  With a constant
refinement ratio (h3/h2 = h2/h1, stated cross-multiplied) the fit is the
closed form: order p = ln(abs((f3-f2)/(f2-f1))) / ln(r) with r = h2/h1
and extrapolated value f1 + (f1-f2)/(r^p - 1).  With non-constant ratios
the spec's supported variant applies instead the generalized
order-solving root-find over the three levels, modelled here by its
defining property `genEq`: the order is a solution p of the generalized
equation and the extrapolated value is f1 + (f1-f2)/((h2/h1)^p - 1); if
the equation has no solution the root-find fails and the fit degrades to
an undefined order with a diagnostic flag.  With fewer than three levels
the fit falls back to the finest value with an undefined order and an
explicit fallback flag. -/
noncomputable def classicFit (hsF fsF : List ℚ) : KeyFit :=
  match hsF, fsF with
  | h1 :: h2 :: h3 :: _, f1 :: f2 :: f3 :: _ =>
      if f2 - f1 = 0 ∨ (f3 - f2) / (f2 - f1) ≤ 0 then
        ⟨some 0, (f1 : ℝ), .nonMonotoneConvergence⟩
      else if h3 * h1 = h2 * h2 then
        let r : ℝ := (h2 : ℝ) / (h1 : ℝ)
        let p : ℝ := Real.log |((f3 : ℝ) - (f2 : ℝ)) / ((f2 : ℝ) - (f1 : ℝ))| / Real.log r
        ⟨some p, (f1 : ℝ) + ((f1 : ℝ) - (f2 : ℝ)) / (r ^ p - 1), .ok⟩
      else if hex : ∃ p : ℝ, p ≠ 0 ∧ genEq h1 h2 h3 f1 f2 f3 p then
        ⟨some hex.choose,
          (f1 : ℝ) + ((f1 : ℝ) - (f2 : ℝ)) / (((h2 : ℝ) / (h1 : ℝ)) ^ hex.choose - 1), .ok⟩
      else ⟨none, (f1 : ℝ), .nonMonotoneConvergence⟩
  | _ :: _, f1 :: _ => ⟨none, (f1 : ℝ), .finestFallback⟩
  | _, _ => ⟨none, 0, .finestFallback⟩

/-- Modelled from the spec: `FinestValue.fit` for one response key - order
undefined, extrapolated value equal to the value at the finest mesh. -/
def finestFit (fsF : List ℚ) : KeyFit :=
  ⟨none, ((fsF.headD 0 : ℚ) : ℝ), .finestFallback⟩

/-- Modelled from the spec: the closed set of convergence-model variants. -/
inductive ModelKind where
  | classic
  | finestValue
  deriving DecidableEq, Repr

/-- Modelled from the spec: the closed set of error-estimator variants. -/
inductive ErrorKind where
  | relativeError
  | absRelativeError
  deriving DecidableEq, Repr

/-- Modelled from the spec: the closed set of uncertainty-estimator
variants. -/
inductive UncertaintyKind where
  | factorOfSafety
  | gridConvergenceIndex
  deriving DecidableEq, Repr

/-- Dispatch a convergence-model variant on one key column. -/
noncomputable def fitKey : ModelKind → List ℚ → List ℚ → KeyFit
  | .classic, hsF, fsF => classicFit hsF fsF
  | .finestValue, _, fsF => finestFit fsF

/-- Modelled from the spec: `RelativeError.compute` for one key - the
signed relative deviation from the extrapolated value at each level; when
the extrapolated value is below the configured epsilon in magnitude, the
estimator signals `DivisionByExtrapolatedZero` by substituting an absolute
error scaled by the configured reference magnitude and setting the flag. -/
noncomputable def relativeErrorKey (cfg : Config) (fsF : List ℚ) (fit : KeyFit) : KeyError :=
  if |fit.extrapolated| < cfg.eps then
    ⟨fsF.map (fun v => ((v : ℝ) - fit.extrapolated) / cfg.refMagnitude), true⟩
  else
    ⟨fsF.map (fun v => ((v : ℝ) - fit.extrapolated) / fit.extrapolated), false⟩

/-- Modelled from the spec: `AbsRelativeError.compute` for one key -
identical magnitude with the sign discarded, under the same
epsilon-guarded substitution. -/
noncomputable def absRelativeErrorKey (cfg : Config) (fsF : List ℚ) (fit : KeyFit) : KeyError :=
  if |fit.extrapolated| < cfg.eps then
    ⟨fsF.map (fun v => |((v : ℝ) - fit.extrapolated) / cfg.refMagnitude|), true⟩
  else
    ⟨fsF.map (fun v => |((v : ℝ) - fit.extrapolated) / fit.extrapolated|), false⟩

/-- Dispatch an error-estimator variant on one key. -/
noncomputable def errorKey : ErrorKind → Config → List ℚ → KeyFit → KeyError
  | .relativeError, cfg, fsF, fit => relativeErrorKey cfg fsF fit
  | .absRelativeError, cfg, fsF, fit => absRelativeErrorKey cfg fsF fit

/-- Modelled from the spec: the default factor-of-safety policy - 1.25 when
the observed order falls inside the expected theoretical band, 3.0 for
marginal convergence (including an undefined order). -/
noncomputable def fsFactor (cfg : Config) (fit : KeyFit) : ℝ :=
  match fit.order with
  | some p => if cfg.bandLo ≤ p ∧ p ≤ cfg.bandHi then 5 / 4 else 3
  | none => 3

/-- Whether an uncertainty-estimator variant requires a defined order. -/
def requiresOrder : UncertaintyKind → Bool
  | .factorOfSafety => false
  | .gridConvergenceIndex => true

/-- Whether a convergence-model variant produces a defined order. -/
def providesOrder : ModelKind → Bool
  | .classic => true
  | .finestValue => false

/-- Modelled from the spec: `FactorOfSafety.compute` for one key -
uncertainty Fs * abs(error) at each level. -/
noncomputable def factorOfSafetyKey (cfg : Config) (fit : KeyFit) (err : KeyError) : List ℝ :=
  err.values.map (fun x => fsFactor cfg fit * |x|)

/-- Modelled from the spec: one uncertainty-estimator variant applied to
one key; `GridConvergenceIndex` requires a defined order and fails with
`UndefinedOrder` otherwise. -/
noncomputable def uncertKey :
    UncertaintyKind → Config → ℝ → KeyFit → KeyError → Except VerifyError (List ℝ)
  | .factorOfSafety, cfg, _, fit, err => .ok (factorOfSafetyKey cfg fit err)
  | .gridConvergenceIndex, cfg, r, fit, err =>
      match fit.order with
      | none => .error .undefinedOrder
      | some p => .ok (err.values.map (fun x => cfg.fsGci * |x| / (r ^ p - 1)))

/-- Refinement ratio of the two finest levels of a canonical series. -/
noncomputable def refineRatioOf (s : MeshSeries) : ℝ :=
  match s.hsF with
  | h1 :: h2 :: _ => (h2 : ℝ) / (h1 : ℝ)
  | _ => 1

/-- Per-key fits of a canonical series under a convergence-model variant
(each response key is fit independently from its own column). -/
noncomputable def fitsOf (m : ModelKind) (s : MeshSeries) : List KeyFit :=
  (List.range s.keys.length).map (fun j => fitKey m s.hsF (s.colF j))

/-- Per-key error tables of a canonical series. -/
noncomputable def errorsOf (e : ErrorKind) (cfg : Config) (s : MeshSeries)
    (fits : List KeyFit) : List KeyError :=
  ((List.range s.keys.length).zip fits).map (fun pr => errorKey e cfg (s.colF pr.1) pr.2)

/-- Collect a list of per-key fallible results, propagating the first
failure. -/
def sequenceExcept {ε α : Type} : List (Except ε α) → Except ε (List α)
  | [] => .ok []
  | .error e :: _ => .error e
  | .ok a :: rest =>
      match sequenceExcept rest with
      | .error e => .error e
      | .ok tl => .ok (a :: tl)

/-- Modelled from the spec: the orchestrator state - one canonical series
with its per-key fits, error tables and uncertainty tables. -/
structure VerificationModel where
  series : MeshSeries
  fits : List KeyFit
  errors : List KeyError
  uncertainties : List (List ℝ)

/-- Modelled from the spec: the computation stages run on an already
canonical series - fit every key, estimate errors, then uncertainties
(the first per-key uncertainty failure aborts construction). -/
noncomputable def buildFrom (cfg : Config) (m : ModelKind) (e : ErrorKind)
    (u : UncertaintyKind) (s : MeshSeries) : Except VerifyError VerificationModel :=
  match sequenceExcept
      (((fitsOf m s).zip (errorsOf e cfg s (fitsOf m s))).map
        (fun pr => uncertKey u cfg (refineRatioOf s) pr.1 pr.2)) with
  | .error err => .error err
  | .ok us => .ok ⟨s, fitsOf m s, errorsOf e cfg s (fitsOf m s), us⟩

/-- Modelled from the spec: `CustomDiscretizationError` construction -
validate strategy compatibility first (an uncertainty estimator that
requires a defined order may not be combined with `FinestValue`), then
normalize, fit, estimate errors and uncertainties. -/
noncomputable def buildModel (cfg : Config) (m : ModelKind) (e : ErrorKind)
    (u : UncertaintyKind) (inp : RawInput) : Except VerifyError VerificationModel :=
  if requiresOrder u = true ∧ providesOrder m = false then
    .error .incompatibleStrategySet
  else
    match normalize inp with
    | .error err => .error err
    | .ok s => buildFrom cfg m e u s

/-- The monotone-refinement fixture of tutorial 2: mesh sizes
[0.00292402, 0.00414913, 0.00573555] with pressure-drop response
[100, 98, 95], as supplied (ascending mesh size). -/
def fixInput : RawInput :=
  ⟨"hs", ["DP"],
    [(292402/100000000, [100]), (414913/100000000, [98]), (573555/100000000, [95])]⟩

/-- The canonical series of the fixture: rows reordered so mesh size is
strictly decreasing (finest level, value 100, last). -/
def fixSeries : MeshSeries :=
  ⟨"hs", ["DP"],
    [(573555/100000000, [95]), (414913/100000000, [98]), (292402/100000000, [100])]⟩

section Lemmas

lemma sortRows_perm (rows : List (ℚ × List ℚ)) : List.Perm (sortRows rows) rows :=
  List.perm_insertionSort rowGe rows

lemma sortRows_sorted (rows : List (ℚ × List ℚ)) : (sortRows rows).Sorted rowGe :=
  List.sorted_insertionSort rowGe rows

lemma pairwiseNe_of_nodup {rows : List (ℚ × List ℚ)}
    (h : (rows.map Prod.fst).Nodup) : rows.Pairwise (fun a b => a.1 ≠ b.1) :=
  List.pairwise_map.mp h

lemma pairwise_rowGt_of_sorted_ne {l : List (ℚ × List ℚ)}
    (hs : l.Sorted rowGe) (hne : l.Pairwise (fun a b => a.1 ≠ b.1)) :
    l.Pairwise rowGt :=
  (hs.and hne).imp (fun h => lt_of_le_of_ne h.1 h.2.symm)

lemma sortRows_pairwise_rowGt {rows : List (ℚ × List ℚ)}
    (hnd : (rows.map Prod.fst).Nodup) : (sortRows rows).Pairwise rowGt := by
  have hne : rows.Pairwise (fun a b => a.1 ≠ b.1) := pairwiseNe_of_nodup hnd
  have hne2 : (sortRows rows).Pairwise (fun a b => a.1 ≠ b.1) :=
    ((sortRows_perm rows).pairwise_iff (fun h => h.symm)).mpr hne
  exact pairwise_rowGt_of_sorted_ne (sortRows_sorted rows) hne2

lemma sortRows_perm_eq {rows rows' : List (ℚ × List ℚ)}
    (hperm : List.Perm rows' rows) (hnd : (rows.map Prod.fst).Nodup) :
    sortRows rows' = sortRows rows := by
  have hnd' : (rows'.map Prod.fst).Nodup := ((hperm.map Prod.fst).nodup_iff).mpr hnd
  have hp : List.Perm (sortRows rows') (sortRows rows) :=
    ((sortRows_perm rows').trans hperm).trans (sortRows_perm rows).symm
  exact List.eq_of_perm_of_sorted hp (sortRows_pairwise_rowGt hnd')
    (sortRows_pairwise_rowGt hnd)

lemma normalize_ok_iff (inp : RawInput) (s : MeshSeries) :
    normalize inp = .ok s ↔
      rowsAligned inp.keys inp.rows ∧ 2 ≤ inp.rows.length ∧
      (∀ row ∈ inp.rows, (0:ℚ) < row.1) ∧ (inp.rows.map Prod.fst).Nodup ∧
      s = ⟨inp.hsKey, inp.keys, sortRows inp.rows⟩ := by
  unfold normalize
  by_cases hA : rowsAligned inp.keys inp.rows
  · rw [if_neg (not_not_intro hA)]
    by_cases hB : inp.rows.length < 2
    · rw [if_pos hB]
      simp only [reduceCtorEq, false_iff, not_and]
      intro _ hlen
      exact absurd hlen (not_le.mpr hB)
    · rw [if_neg hB]
      by_cases hC : ∀ row ∈ inp.rows, (0:ℚ) < row.1
      · rw [if_neg (not_not_intro hC)]
        by_cases hD : (inp.rows.map Prod.fst).Nodup
        · rw [if_neg (not_not_intro hD)]
          simp only [Except.ok.injEq]
          constructor
          · intro h
            exact ⟨hA, not_lt.mp hB, hC, hD, h.symm⟩
          · intro h
            exact h.2.2.2.2.symm
        · rw [if_pos hD]
          simp only [reduceCtorEq, false_iff]
          intro h
          exact hD h.2.2.2.1
      · rw [if_pos hC]
        simp only [reduceCtorEq, false_iff]
        intro h
        exact hC h.2.2.1
  · rw [if_pos hA]
    simp only [reduceCtorEq, false_iff]
    intro h
    exact hA h.1

lemma normalize_ok_rows {inp : RawInput} {s : MeshSeries}
    (h : normalize inp = .ok s) :
    s = ⟨inp.hsKey, inp.keys, sortRows inp.rows⟩ :=
  ((normalize_ok_iff inp s).mp h).2.2.2.2

lemma normalize_ok_pairwise {inp : RawInput} {s : MeshSeries}
    (h : normalize inp = .ok s) : s.rows.Pairwise rowGt := by
  obtain ⟨-, -, -, hnd, hs⟩ := (normalize_ok_iff inp s).mp h
  rw [hs]
  exact sortRows_pairwise_rowGt hnd

lemma sequenceExcept_map_ok {ε α β : Type} (l : List β) (g : β → α) :
    sequenceExcept (l.map (fun x => (Except.ok (g x) : Except ε α))) = .ok (l.map g) := by
  induction l with
  | nil => rfl
  | cons a tl ih => simp [sequenceExcept, ih]

lemma fix_root_pos (p : ℝ) (hp0 : p ≠ 0)
    (heq : genEq (292402/100000000) (414913/100000000) (573555/100000000)
      100 98 95 p) : 0 < p := by
  by_contra hle
  have hpneg : p < 0 := lt_of_le_of_ne (not_lt.mp hle) hp0
  unfold genEq at heq
  have hRHS : (((95:ℚ):ℝ) - ((98:ℚ):ℝ)) / (((98:ℚ):ℝ) - ((100:ℚ):ℝ)) = 3/2 := by
    norm_num
  rw [hRHS] at heq
  have hCpos : (0:ℝ) < ((292402/100000000:ℚ):ℝ) := by norm_num
  have hBpos : (0:ℝ) < ((414913/100000000:ℚ):ℝ) := by norm_num
  have hApos : (0:ℝ) < ((573555/100000000:ℚ):ℝ) := by norm_num
  have hCB : ((292402/100000000:ℚ):ℝ) < ((414913/100000000:ℚ):ℝ) := by norm_num
  have hBA : ((414913/100000000:ℚ):ℝ) < ((573555/100000000:ℚ):ℝ) := by norm_num
  have hxpos : (0:ℝ) < ((573555/100000000:ℚ):ℝ) ^ p := Real.rpow_pos_of_pos hApos p
  have hypos : (0:ℝ) < ((414913/100000000:ℚ):ℝ) ^ p := Real.rpow_pos_of_pos hBpos p
  have hzpos : (0:ℝ) < ((292402/100000000:ℚ):ℝ) ^ p := Real.rpow_pos_of_pos hCpos p
  have hAB : ((573555/100000000:ℚ):ℝ) ^ p < ((414913/100000000:ℚ):ℝ) ^ p :=
    Real.rpow_lt_rpow_of_exponent_neg hBpos hBA hpneg
  have hBC : ((414913/100000000:ℚ):ℝ) ^ p < ((292402/100000000:ℚ):ℝ) ^ p :=
    Real.rpow_lt_rpow_of_exponent_neg hCpos hCB hpneg
  have hDne : ((414913/100000000:ℚ):ℝ) ^ p - ((292402/100000000:ℚ):ℝ) ^ p ≠ 0 :=
    sub_ne_zero.mpr (ne_of_lt hBC)
  rw [div_eq_iff hDne] at heq
  have hACpos : (0:ℝ) < ((573555/100000000:ℚ):ℝ) * ((292402/100000000:ℚ):ℝ) :=
    mul_pos hApos hCpos
  have hACB : ((573555/100000000:ℚ):ℝ) * ((292402/100000000:ℚ):ℝ) <
      ((414913/100000000:ℚ):ℝ) * ((414913/100000000:ℚ):ℝ) := by norm_num
  have hflip : (((414913/100000000:ℚ):ℝ) * ((414913/100000000:ℚ):ℝ)) ^ p <
      (((573555/100000000:ℚ):ℝ) * ((292402/100000000:ℚ):ℝ)) ^ p :=
    Real.rpow_lt_rpow_of_exponent_neg hACpos hACB hpneg
  rw [Real.mul_rpow (le_of_lt hBpos) (le_of_lt hBpos),
    Real.mul_rpow (le_of_lt hApos) (le_of_lt hCpos)] at hflip
  have hBsqrt : Real.sqrt (((414913/100000000:ℚ):ℝ) ^ p * ((414913/100000000:ℚ):ℝ) ^ p) =
      ((414913/100000000:ℚ):ℝ) ^ p := Real.sqrt_mul_self (le_of_lt hypos)
  have hlt2 : Real.sqrt (((414913/100000000:ℚ):ℝ) ^ p * ((414913/100000000:ℚ):ℝ) ^ p) <
      Real.sqrt (((573555/100000000:ℚ):ℝ) ^ p * ((292402/100000000:ℚ):ℝ) ^ p) :=
    Real.sqrt_lt_sqrt (by positivity) hflip
  have hgm : Real.sqrt (((573555/100000000:ℚ):ℝ) ^ p) *
      Real.sqrt (((292402/100000000:ℚ):ℝ) ^ p) =
      Real.sqrt (((573555/100000000:ℚ):ℝ) ^ p * ((292402/100000000:ℚ):ℝ) ^ p) :=
    (Real.sqrt_mul (le_of_lt hxpos) _).symm
  have hamgm : 2 * (Real.sqrt (((573555/100000000:ℚ):ℝ) ^ p) *
      Real.sqrt (((292402/100000000:ℚ):ℝ) ^ p)) ≤
      ((573555/100000000:ℚ):ℝ) ^ p + ((292402/100000000:ℚ):ℝ) ^ p := by
    nlinarith [sq_nonneg (Real.sqrt (((573555/100000000:ℚ):ℝ) ^ p) -
        Real.sqrt (((292402/100000000:ℚ):ℝ) ^ p)),
      Real.sq_sqrt (le_of_lt hxpos), Real.sq_sqrt (le_of_lt hzpos)]
  rw [hBsqrt] at hlt2
  linarith [heq, hBC, hlt2, hamgm, hgm.symm.le, hgm.le]

lemma fix_root_exists :
    ∃ p : ℝ, p ≠ 0 ∧ genEq (292402/100000000) (414913/100000000) (573555/100000000)
      100 98 95 p := by
  have hcont : Continuous (fun p : ℝ =>
      Real.exp (Real.log (573555/100000000) * p) -
        5/2 * Real.exp (Real.log (414913/100000000) * p) +
        3/2 * Real.exp (Real.log (292402/100000000) * p)) := by
    fun_prop
  have hg1 : (fun p : ℝ =>
      Real.exp (Real.log (573555/100000000) * p) -
        5/2 * Real.exp (Real.log (414913/100000000) * p) +
        3/2 * Real.exp (Real.log (292402/100000000) * p)) 1 < 0 := by
    simp only [mul_one]
    rw [Real.exp_log (by norm_num), Real.exp_log (by norm_num),
      Real.exp_log (by norm_num)]
    norm_num
  have hg2 : (0:ℝ) < (fun p : ℝ =>
      Real.exp (Real.log (573555/100000000) * p) -
        5/2 * Real.exp (Real.log (414913/100000000) * p) +
        3/2 * Real.exp (Real.log (292402/100000000) * p)) 2 := by
    have h2cast : (2:ℝ) = ((2:ℕ):ℝ) := by norm_num
    simp only []
    rw [mul_comm (Real.log (573555/100000000)) 2, mul_comm (Real.log (414913/100000000)) 2,
      mul_comm (Real.log (292402/100000000)) 2, h2cast, Real.exp_nat_mul,
      Real.exp_nat_mul, Real.exp_nat_mul, Real.exp_log (by norm_num),
      Real.exp_log (by norm_num), Real.exp_log (by norm_num)]
    norm_num
  obtain ⟨p, hpmem, hgp⟩ :=
    intermediate_value_Icc (by norm_num : (1:ℝ) ≤ 2) hcont.continuousOn
      ⟨le_of_lt hg1, le_of_lt hg2⟩
  have hppos : (0:ℝ) < p := lt_of_lt_of_le one_pos hpmem.1
  refine ⟨p, ne_of_gt hppos, ?_⟩
  unfold genEq
  have hA : ((573555/100000000:ℚ):ℝ) = 573555/100000000 := by norm_num
  have hB : ((414913/100000000:ℚ):ℝ) = 414913/100000000 := by norm_num
  have hC : ((292402/100000000:ℚ):ℝ) = 292402/100000000 := by norm_num
  have hRHS : (((95:ℚ):ℝ) - ((98:ℚ):ℝ)) / (((98:ℚ):ℝ) - ((100:ℚ):ℝ)) = 3/2 := by
    norm_num
  rw [hA, hB, hC, hRHS, Real.rpow_def_of_pos (by norm_num),
    Real.rpow_def_of_pos (by norm_num), Real.rpow_def_of_pos (by norm_num)]
  have hlog : Real.log (292402/100000000) < Real.log (414913/100000000) :=
    Real.log_lt_log (by norm_num) (by norm_num)
  have hexp : Real.exp (Real.log (292402/100000000) * p) <
      Real.exp (Real.log (414913/100000000) * p) :=
    Real.exp_lt_exp.mpr (mul_lt_mul_of_pos_right hlog hppos)
  have hDne : Real.exp (Real.log (414913/100000000) * p) -
      Real.exp (Real.log (292402/100000000) * p) ≠ 0 :=
    sub_ne_zero.mpr (ne_of_gt hexp)
  rw [div_eq_iff hDne]
  have hgp2 : Real.exp (Real.log (573555/100000000) * p) -
      5/2 * Real.exp (Real.log (414913/100000000) * p) +
      3/2 * Real.exp (Real.log (292402/100000000) * p) = 0 := hgp
  linarith [hgp2]

lemma fixture_fit_facts :
    (∃ p : ℝ, 0 < p ∧
      (classicFit fixSeries.hsF (fixSeries.colF 0)).order = some p) ∧
    100 < (classicFit fixSeries.hsF (fixSeries.colF 0)).extrapolated := by
  have hhs : fixSeries.hsF =
      [292402/100000000, 414913/100000000, 573555/100000000] := rfl
  have hcol : fixSeries.colF 0 = [100, 98, 95] := rfl
  rw [hhs, hcol, classicFit, if_neg (by norm_num), if_neg (by norm_num),
    dif_pos fix_root_exists]
  have hspec := fix_root_exists.choose_spec
  have hppos : 0 < fix_root_exists.choose := fix_root_pos _ hspec.1 hspec.2
  refine ⟨⟨fix_root_exists.choose, hppos, rfl⟩, ?_⟩
  show (100:ℝ) <
    ((100:ℚ):ℝ) + (((100:ℚ):ℝ) - ((98:ℚ):ℝ)) /
      ((((414913/100000000:ℚ):ℝ) / ((292402/100000000:ℚ):ℝ)) ^ fix_root_exists.choose - 1)
  have hr : ((414913/100000000:ℚ):ℝ) / ((292402/100000000:ℚ):ℝ) = 414913/292402 := by
    norm_num
  have hf1 : ((100:ℚ):ℝ) = 100 := by norm_num
  have hf2 : ((98:ℚ):ℝ) = 98 := by norm_num
  rw [hr, hf1, hf2]
  have hgt1 : (1:ℝ) < ((414913:ℝ)/292402) ^ fix_root_exists.choose :=
    (Real.one_lt_rpow_iff_of_pos (by norm_num)).mpr (Or.inl ⟨by norm_num, hppos⟩)
  have hd : (0:ℝ) < ((414913:ℝ)/292402) ^ fix_root_exists.choose - 1 := by linarith
  have hq : (0:ℝ) < (100 - 98) / (((414913:ℝ)/292402) ^ fix_root_exists.choose - 1) :=
    div_pos (by norm_num) hd
  linarith

end Lemmas

/-- Claim C1: for a series with at least 3 mesh levels (finest-first:
h1 < h2 < h3 with values f1, f2, f3) and constant refinement ratio
r = h2/h1 = h3/h2, under the preconditions f2 - f1 not zero and
(f3 - f2)/(f2 - f1) positive, the classic Richardson fit returns the order
p = ln(abs((f3 - f2)/(f2 - f1))) / ln(r) and the extrapolated value
f1 + (f1 - f2)/(r^p - 1). -/
theorem C1_classic_fit_formulas (h1 h2 h3 : ℚ) (hrest : List ℚ)
    (f1 f2 f3 : ℚ) (frest : List ℚ)
    (hconst : h3 * h1 = h2 * h2)
    (hden : f2 - f1 ≠ 0) (hpos : 0 < (f3 - f2) / (f2 - f1)) :
    classicFit (h1 :: h2 :: h3 :: hrest) (f1 :: f2 :: f3 :: frest) =
      ⟨some (Real.log |((f3 : ℝ) - (f2 : ℝ)) / ((f2 : ℝ) - (f1 : ℝ))| /
          Real.log ((h2 : ℝ) / (h1 : ℝ))),
        (f1 : ℝ) + ((f1 : ℝ) - (f2 : ℝ)) /
          (((h2 : ℝ) / (h1 : ℝ)) ^
              (Real.log |((f3 : ℝ) - (f2 : ℝ)) / ((f2 : ℝ) - (f1 : ℝ))| /
                Real.log ((h2 : ℝ) / (h1 : ℝ))) - 1),
        .ok⟩ := by
  rw [classicFit, if_neg, if_pos hconst]
  push_neg
  exact ⟨hden, hpos⟩

/-- Witness for C1 on the constant-ratio series hs = [1, 2, 4] (finest
first), values [100, 98, 95]. -/
theorem C1_classic_fit_formulas_witness :
    (classicFit [1, 2, 4] [100, 98, 95]).diag = Diagnostic.ok := by
  rw [C1_classic_fit_formulas 1 2 4 [] 100 98 95 [] (by norm_num) (by norm_num)
    (by norm_num)]

/-- Claim C5: when the classic order formula is ill-posed for a key
(f2 - f1 zero, or the log argument non-positive), the fit for that key
degrades to order 0 and extrapolated f1 with the queryable
`nonMonotoneConvergence` diagnostic (no NaN can arise in this model), and
fits are computed per key independently, so every other key still receives
the fit of its own column. -/
theorem C5_nonmonotone_degrade (h1 h2 h3 : ℚ) (hrest : List ℚ)
    (f1 f2 f3 : ℚ) (frest : List ℚ)
    (hbad : f2 - f1 = 0 ∨ (f3 - f2) / (f2 - f1) ≤ 0) :
    classicFit (h1 :: h2 :: h3 :: hrest) (f1 :: f2 :: f3 :: frest) =
      ⟨some 0, (f1 : ℝ), .nonMonotoneConvergence⟩ ∧
    (∀ (m : ModelKind) (s : MeshSeries) (j : ℕ), j < s.keys.length →
      (fitsOf m s).getD j ⟨none, 0, .ok⟩ = fitKey m s.hsF (s.colF j)) := by
  constructor
  · rw [classicFit, if_pos hbad]
  · intro m s j hj
    unfold fitsOf
    simp [List.getD, List.getElem?_map, List.getElem?_range hj]

/-- Witness for C5 on the oscillatory series [100, 98, 99] (the log
argument is negative). -/
theorem C5_nonmonotone_degrade_witness :
    classicFit [1, 2, 4] [100, 98, 99] = ⟨some 0, (100 : ℝ), .nonMonotoneConvergence⟩ :=
  (C5_nonmonotone_degrade 1 2 4 [] 100 98 99 [] (Or.inr (by norm_num))).1

/-- Claim C6: the relative-error estimator returns
(value - extrapolated)/extrapolated per level when the extrapolated value
is at least the configured epsilon in magnitude, and otherwise signals the
division-by-extrapolated-zero substitution: a flagged absolute error
scaled by the configured reference magnitude. -/
theorem C6_relative_error_branches (cfg : Config) (fsF : List ℚ) (fit : KeyFit) :
    (cfg.eps ≤ |fit.extrapolated| →
      relativeErrorKey cfg fsF fit =
        ⟨fsF.map (fun v => ((v : ℝ) - fit.extrapolated) / fit.extrapolated), false⟩) ∧
    (|fit.extrapolated| < cfg.eps →
      relativeErrorKey cfg fsF fit =
        ⟨fsF.map (fun v => ((v : ℝ) - fit.extrapolated) / cfg.refMagnitude), true⟩) := by
  constructor
  · intro h
    rw [relativeErrorKey, if_neg (not_lt.mpr h)]
  · intro h
    rw [relativeErrorKey, if_pos h]

/-- Witness for C6: both branches at concrete configurations (extrapolated
value 5 against epsilon 1, and extrapolated value 0 against epsilon 1). -/
theorem C6_relative_error_branches_witness :
    (relativeErrorKey ⟨1, 1, 1, 3, 5/4⟩ [2] ⟨none, 5, .ok⟩).substituted = false ∧
    (relativeErrorKey ⟨1, 1, 1, 3, 5/4⟩ [2] ⟨none, 0, .ok⟩).substituted = true := by
  constructor
  · rw [(C6_relative_error_branches ⟨1, 1, 1, 3, 5/4⟩ [2] ⟨none, 5, .ok⟩).1 (by norm_num)]
  · rw [(C6_relative_error_branches ⟨1, 1, 1, 3, 5/4⟩ [2] ⟨none, 0, .ok⟩).2 (by norm_num)]

/-- Claim C7: for every configuration, key column and fit, the absolute
relative error is the elementwise absolute value of the signed relative
error, with the same substitution flag. -/
theorem C7_abs_relative_error_abs (cfg : Config) (fsF : List ℚ) (fit : KeyFit) :
    (absRelativeErrorKey cfg fsF fit).values =
      (relativeErrorKey cfg fsF fit).values.map (fun x => |x|) ∧
    (absRelativeErrorKey cfg fsF fit).substituted =
      (relativeErrorKey cfg fsF fit).substituted := by
  unfold absRelativeErrorKey relativeErrorKey
  by_cases h : |fit.extrapolated| < cfg.eps
  · rw [if_pos h, if_pos h]
    exact ⟨by simp [List.map_map, Function.comp], rfl⟩
  · rw [if_neg h, if_neg h]
    exact ⟨by simp [List.map_map, Function.comp], rfl⟩

/-- Claim C4, counterexample: on the fixture the fitted extrapolated value
lies strictly above the finest response value 100, so it is not strictly
between the extremes 95 and 100 of the raw response values. -/
theorem C4_between_counterexample :
    ¬ (95 < (classicFit fixSeries.hsF (fixSeries.colF 0)).extrapolated ∧
       (classicFit fixSeries.hsF (fixSeries.colF 0)).extrapolated < 100) := by
  intro h
  exact absurd h.2 (not_lt.mpr (le_of_lt fixture_fit_facts.2))

/-- Claim C4, amended: the fixture normalizes to the canonical
strictly-decreasing series and - through the generalized order-solving
root-find, since the two consecutive refinement ratios differ by more
than the 1% tolerance named by the spec (final conjunct) - the fit
produces a defined, strictly positive order, and an extrapolated value
strictly greater than the finest response value 100, continuing the
monotone trend beyond the raw response extremes rather than lying
between them. -/
theorem C4_fixture_amended :
    normalize fixInput = .ok fixSeries ∧
    (∃ p : ℝ, 0 < p ∧ (classicFit fixSeries.hsF (fixSeries.colF 0)).order = some p) ∧
    100 < (classicFit fixSeries.hsF (fixSeries.colF 0)).extrapolated ∧
    ((573555/414913 : ℚ) / (414913/292402)) < 99/100 := by
  refine ⟨?_, fixture_fit_facts.1, fixture_fit_facts.2, by norm_num⟩
  show normalize fixInput = .ok fixSeries
  unfold fixInput fixSeries
  norm_num [normalize, sortRows, rowsAligned, List.insertionSort,
    List.orderedInsert, rowGe]

/-- Claim C2: for every input with exactly 2 mesh levels, the classic fit
of every response key has the explicit undefined-marker `none` as its
order (not a silent zero) and its extrapolated value is exactly the
response value at the finer mesh - the head of the finest-first column,
whose mesh size is the minimum of the series. -/
theorem C2_two_level_fallback (inp : RawInput) (s : MeshSeries)
    (hok : normalize inp = .ok s) (hlen : inp.rows.length = 2) :
    (∀ j : ℕ, fitKey .classic s.hsF (s.colF j) =
      ⟨none, (((s.colF j).headD 0 : ℚ) : ℝ), .finestFallback⟩) ∧
    (∀ h ∈ s.hsF, s.hsF.headD 0 ≤ h) := by
  have hpw := normalize_ok_pairwise hok
  have hrows := normalize_ok_rows hok
  have hlen2 : s.rows.length = 2 := by
    rw [hrows]
    exact (sortRows_perm inp.rows).length_eq.trans hlen
  obtain ⟨a, b, hab⟩ := List.length_eq_two.mp hlen2
  have hba : b.1 < a.1 := by
    rw [hab] at hpw
    exact (List.pairwise_cons.mp hpw).1 b (by simp)
  have h1 : s.hsF = [b.1, a.1] := by
    unfold MeshSeries.hsF
    rw [hab]
    rfl
  have h2 : ∀ j : ℕ, s.colF j = [b.2.getD j 0, a.2.getD j 0] := by
    intro j
    unfold MeshSeries.colF
    rw [hab]
    rfl
  constructor
  · intro j
    rw [h1, h2 j]
    rfl
  · intro h hmem
    rw [h1] at hmem ⊢
    simp only [List.mem_cons, List.not_mem_nil, or_false] at hmem
    rcases hmem with rfl | rfl
    · exact le_refl _
    · exact le_of_lt hba

/-- Witness for C2 on the two-level input with mesh sizes [2, 1] and
response [5, 7]: the fit is the finest-value fallback with value 7. -/
theorem C2_two_level_fallback_witness :
    fitKey .classic (MeshSeries.hsF ⟨"hs", ["y"], [(2, [5]), (1, [7])]⟩)
        (MeshSeries.colF ⟨"hs", ["y"], [(2, [5]), (1, [7])]⟩ 0) =
      ⟨none, ((7 : ℚ) : ℝ), .finestFallback⟩ :=
  (C2_two_level_fallback ⟨"hs", ["y"], [(2, [5]), (1, [7])]⟩
    ⟨"hs", ["y"], [(2, [5]), (1, [7])]⟩ rfl rfl).1 0

/-- Claim C3: permuting the rows of a valid input before construction
yields the same canonical series and an identical verification model
(same fits, errors and uncertainties); the normalizer reorders all
sequences by one consistent permutation making mesh size strictly
decreasing. -/
theorem C3_reorder_invariance (cfg : Config) (m : ModelKind) (e : ErrorKind)
    (u : UncertaintyKind) (inp inp2 : RawInput) (s : MeshSeries)
    (hkey : inp2.hsKey = inp.hsKey) (hkeys : inp2.keys = inp.keys)
    (hperm : List.Perm inp2.rows inp.rows)
    (hok : normalize inp = .ok s) :
    normalize inp2 = .ok s ∧
    buildModel cfg m e u inp2 = buildModel cfg m e u inp ∧
    s.rows.Pairwise rowGt := by
  obtain ⟨hA, hB, hC, hD, hs⟩ := (normalize_ok_iff inp s).mp hok
  have hok2 : normalize inp2 = .ok s := by
    rw [normalize_ok_iff]
    refine ⟨?_, ?_, ?_, ?_, ?_⟩
    · intro row hrow
      rw [hkeys]
      exact hA row (hperm.mem_iff.mp hrow)
    · rw [hperm.length_eq]
      exact hB
    · intro row hrow
      exact hC row (hperm.mem_iff.mp hrow)
    · exact ((hperm.map Prod.fst).nodup_iff).mpr hD
    · rw [hkey, hkeys, sortRows_perm_eq hperm hD]
      exact hs
  refine ⟨hok2, ?_, normalize_ok_pairwise hok⟩
  unfold buildModel
  rw [hok, hok2]

/-- Witness for C3: swapping the two rows of a concrete input yields the
same canonical series. -/
theorem C3_reorder_invariance_witness :
    normalize ⟨"hs", ["y"], [(1, [7]), (2, [5])]⟩ =
      .ok ⟨"hs", ["y"], [(2, [5]), (1, [7])]⟩ :=
  (C3_reorder_invariance ⟨1, 1, 1, 3, 5/4⟩ .classic .relativeError .factorOfSafety
    ⟨"hs", ["y"], [(2, [5]), (1, [7])]⟩ ⟨"hs", ["y"], [(1, [7]), (2, [5])]⟩
    ⟨"hs", ["y"], [(2, [5]), (1, [7])]⟩ rfl rfl
    (List.Perm.swap (2, [5]) (1, [7]) []) rfl).1

/-- Claim C8: an input whose mesh values contain a duplicate - and which
passes the earlier shape and level-count validations - is rejected with
`DuplicateMeshSize` (in particular the fixture [0.01, 0.01, 0.02]); more
generally the normalizer rejects every input whose mesh values are not all
positive and distinct or whose sequences differ in length. -/
theorem C8_duplicate_mesh_rejection (inp : RawInput) :
    (¬ (inp.rows.map Prod.fst).Nodup → rowsAligned inp.keys inp.rows →
      2 ≤ inp.rows.length → (∀ row ∈ inp.rows, (0:ℚ) < row.1) →
      normalize inp = .error .duplicateMeshSize) ∧
    ((¬ rowsAligned inp.keys inp.rows ∨ ¬ (∀ row ∈ inp.rows, (0:ℚ) < row.1) ∨
      ¬ (inp.rows.map Prod.fst).Nodup) →
      ∃ err, normalize inp = .error err) := by
  constructor
  · intro hdup hal hlen hpos
    rw [normalize, if_neg (not_not_intro hal), if_neg (not_lt.mpr hlen),
      if_neg (not_not_intro hpos), if_pos hdup]
  · intro hbad
    by_cases hA : rowsAligned inp.keys inp.rows
    · by_cases hB : inp.rows.length < 2
      · exact ⟨.insufficientLevels, by rw [normalize, if_neg (not_not_intro hA), if_pos hB]⟩
      · by_cases hC : ∀ row ∈ inp.rows, (0:ℚ) < row.1
        · by_cases hD : (inp.rows.map Prod.fst).Nodup
          · rcases hbad with h | h | h
            · exact absurd hA h
            · exact absurd hC h
            · exact absurd hD h
          · exact ⟨.duplicateMeshSize, by
              rw [normalize, if_neg (not_not_intro hA), if_neg hB,
                if_neg (not_not_intro hC), if_pos hD]⟩
        · exact ⟨.nonPositiveMeshSize, by
            rw [normalize, if_neg (not_not_intro hA), if_neg hB, if_pos hC]⟩
    · exact ⟨.shapeMismatch, by rw [normalize, if_pos hA]⟩

/-- Witness for C8 on the duplicate-mesh fixture [0.01, 0.01, 0.02] and on
an input with a non-positive mesh size. -/
theorem C8_duplicate_mesh_rejection_witness :
    normalize ⟨"hs", ["y"], [(1/100, [1]), (1/100, [2]), (2/100, [3])]⟩ =
      .error .duplicateMeshSize ∧
    ∃ err, normalize ⟨"hs", ["y"], [(0, [1]), (1, [2])]⟩ = .error err := by
  constructor
  · exact (C8_duplicate_mesh_rejection ⟨"hs", ["y"], [(1/100, [1]), (1/100, [2]), (2/100, [3])]⟩).1
      (by norm_num [List.nodup_cons]) (by simp [rowsAligned]) (by norm_num)
      (by norm_num [List.forall_mem_cons])
  · exact (C8_duplicate_mesh_rejection ⟨"hs", ["y"], [(0, [1]), (1, [2])]⟩).2
      (Or.inr (Or.inl (by norm_num [List.forall_mem_cons])))

/-- Claim C10: the combination `FinestValue` model, `RelativeError` error
estimator and `FactorOfSafety` uncertainty estimator is accepted (the
factor of safety needs no defined order) and construction succeeds on
every valid input, producing the per-key factor-of-safety uncertainty
tables. -/
theorem C10_finest_factor_of_safety_succeeds (cfg : Config) (inp : RawInput)
    (s : MeshSeries) (hok : normalize inp = .ok s) :
    buildModel cfg .finestValue .relativeError .factorOfSafety inp =
      .ok ⟨s, fitsOf .finestValue s,
        errorsOf .relativeError cfg s (fitsOf .finestValue s),
        ((fitsOf .finestValue s).zip
            (errorsOf .relativeError cfg s (fitsOf .finestValue s))).map
          (fun pr => factorOfSafetyKey cfg pr.1 pr.2)⟩ := by
  unfold buildModel
  rw [hok, if_neg]
  · show buildFrom cfg .finestValue .relativeError .factorOfSafety s = _
    unfold buildFrom
    rw [show (fun pr : KeyFit × KeyError =>
        uncertKey .factorOfSafety cfg (refineRatioOf s) pr.1 pr.2) =
        (fun pr : KeyFit × KeyError =>
          (Except.ok (factorOfSafetyKey cfg pr.1 pr.2) : Except VerifyError (List ℝ)))
      from rfl]
    rw [sequenceExcept_map_ok]
  · intro h
    exact Bool.false_ne_true (by simpa [requiresOrder] using h.1)

/-- Witness for C10 on a concrete valid two-level input. -/
theorem C10_finest_factor_of_safety_succeeds_witness :
    buildModel ⟨1, 1, 1, 3, 5/4⟩ .finestValue .relativeError .factorOfSafety
        ⟨"hs", ["y"], [(2, [5]), (1, [7])]⟩ =
      .ok ⟨⟨"hs", ["y"], [(2, [5]), (1, [7])]⟩,
        fitsOf .finestValue ⟨"hs", ["y"], [(2, [5]), (1, [7])]⟩,
        errorsOf .relativeError ⟨1, 1, 1, 3, 5/4⟩ ⟨"hs", ["y"], [(2, [5]), (1, [7])]⟩
          (fitsOf .finestValue ⟨"hs", ["y"], [(2, [5]), (1, [7])]⟩),
        ((fitsOf .finestValue ⟨"hs", ["y"], [(2, [5]), (1, [7])]⟩).zip
            (errorsOf .relativeError ⟨1, 1, 1, 3, 5/4⟩ ⟨"hs", ["y"], [(2, [5]), (1, [7])]⟩
              (fitsOf .finestValue ⟨"hs", ["y"], [(2, [5]), (1, [7])]⟩))).map
          (fun pr => factorOfSafetyKey ⟨1, 1, 1, 3, 5/4⟩ pr.1 pr.2)⟩ :=
  C10_finest_factor_of_safety_succeeds ⟨1, 1, 1, 3, 5/4⟩
    ⟨"hs", ["y"], [(2, [5]), (1, [7])]⟩ ⟨"hs", ["y"], [(2, [5]), (1, [7])]⟩ rfl

/-- Claim C9: constructing a model with the `FinestValue` convergence
model and the `GridConvergenceIndex` uncertainty estimator fails with
`IncompatibleStrategySet` for every configuration, error estimator and
input - the check runs before normalization, fitting, or any other
computation. -/
theorem C9_incompatible_strategy (cfg : Config) (e : ErrorKind) (inp : RawInput) :
    buildModel cfg .finestValue e .gridConvergenceIndex inp =
      .error .incompatibleStrategySet := by
  rw [buildModel, if_pos]
  exact ⟨rfl, rfl⟩

end CfdVerify
